import Mathlib

/-!
Verification of the revm execution-handler and inspector instrumentation core.

The development shallowly embeds the two source files
`crates/revm/src/handler/mainnet/execution.rs` and
`crates/revm/src/inspector/handler_register.rs`.  Collaborator types that
live outside those files (the `Gas` ledger, `InstructionResult`, the
journaled state, the interpreter loop and the transaction driver) are
modelled from the specification and are marked as such in their doc
comments.
-/

namespace Revm

/-- Modelled from the spec: the execution status codes carried by frames.
`Continue`, `Stop`, `Return`, `SelfDestruct` are the success kinds matched
by the `return_ok` pattern; `Revert`, `CallTooDeep`, `OutOfFunds` are the
revert kinds matched by `return_revert`; the rest are error kinds. -/
inductive InstructionResult where
  | Continue
  | Stop
  | Return
  | SelfDestruct
  | Revert
  | CallTooDeep
  | OutOfFunds
  | CallOrCreate
  | OutOfGas
  | StackUnderflow
  | StackOverflow
  | InvalidOpcode
  | FatalExternalError
  deriving DecidableEq, Repr

/-- Modelled from the spec: the `return_ok` success-kind pattern. -/
def InstructionResult.is_ok : InstructionResult → Bool
  | .Continue | .Stop | .Return | .SelfDestruct => true
  | _ => false

/-- Modelled from the spec: the `return_revert` revert-kind pattern. -/
def InstructionResult.is_revert : InstructionResult → Bool
  | .Revert | .CallTooDeep | .OutOfFunds => true
  | _ => false

/-- Modelled from the spec: the gas ledger of one activation frame, with
`limit`, `remaining` and the signed `refunded` counter. -/
structure Gas where
  limit : Nat
  remaining : Nat
  refunded : Int
  deriving DecidableEq, Repr

namespace Gas

/-- Modelled from the spec: `Gas::new(limit)` starts with all gas remaining
and no refund. -/
def new (limit : Nat) : Gas :=
  { limit := limit, remaining := limit, refunded := 0 }

/-- Modelled from the spec: `record_cost` decreases `remaining`; underflow
is a hard failure reported through the returned flag, and on failure the
ledger is left untouched. -/
def record_cost (g : Gas) (cost : Nat) : Gas × Bool :=
  if cost ≤ g.remaining then ({ g with remaining := g.remaining - cost }, true)
  else (g, false)

/-- Modelled from the spec: `erase_cost` restores `n` units to `remaining`. -/
def erase_cost (g : Gas) (n : Nat) : Gas :=
  { g with remaining := g.remaining + n }

/-- Modelled from the spec: `record_refund` accumulates into the refund
counter. -/
def record_refund (g : Gas) (n : Int) : Gas :=
  { g with refunded := g.refunded + n }

/-- Modelled from the spec: `spend()` is `limit - remaining`. -/
def spend (g : Gas) : Nat :=
  g.limit - g.remaining

/-- Modelled from the spec: `set_final_refund` recomputes `refunded` as
`min(refunded, spend / cap_divisor)` where the divisor is 5 from London
onward and 2 before. -/
def set_final_refund (g : Gas) (isLondon : Bool) : Gas :=
  let max_refund_quotient : Nat := if isLondon then 5 else 2
  { g with refunded := min g.refunded ((g.spend / max_refund_quotient : Nat) : Int) }

end Gas

/-- The result of running one frame's interpreter: a status, output bytes
and the frame's gas snapshot (mirrors `revm_interpreter::InterpreterResult`). -/
structure InterpreterResult where
  result : InstructionResult
  output : List Nat
  gas : Gas
  deriving DecidableEq, Repr

/-- Outcome of a completed call frame: the interpreter result plus the
caller-side memory range return data is written into. -/
structure CallOutcome where
  result : InterpreterResult
  memory_offset : Nat × Nat
  deriving DecidableEq, Repr

/-- Outcome of a completed create frame: the interpreter result plus the
(optional) created address. -/
structure CreateOutcome where
  result : InterpreterResult
  address : Option Nat
  deriving DecidableEq, Repr

/-- A frame result is either a call outcome or a create outcome. -/
inductive FrameResult where
  | call : CallOutcome → FrameResult
  | create : CreateOutcome → FrameResult
  deriving DecidableEq, Repr

/-- `FrameResult::interpreter_result`. -/
def FrameResult.interpreter_result : FrameResult → InterpreterResult
  | .call o => o.result
  | .create o => o.result

/-- Writing through `FrameResult::gas_mut`: replace the embedded gas. -/
def FrameResult.set_gas : FrameResult → Gas → FrameResult
  | .call o, g => .call { o with result := { o.result with gas := g } }
  | .create o, g => .create { o with result := { o.result with gas := g } }

/-- Whether the frame result is a call outcome. -/
def FrameResult.is_call : FrameResult → Bool
  | .call _ => true
  | .create _ => false

/-- Embedding of `frame_return_with_refund_flag` from
`handler/mainnet/execution.rs`: snapshot the frame's `remaining` and
`refunded`, reset the ledger to the transaction gas limit, charge the full
limit, conditionally restore on success or revert, and apply the final
refund cap when refunds are enabled.  The spec generic `SPEC` only feeds
the London flag of the cap divisor, so it is passed as `isLondon`. -/
def frame_return_with_refund_flag (isLondon : Bool) (tx_gas_limit : Nat)
    (frame_result : FrameResult) (refund_enabled : Bool) : FrameResult :=
  let instruction_result := frame_result.interpreter_result.result
  let remaining := frame_result.interpreter_result.gas.remaining
  let refunded := frame_result.interpreter_result.gas.refunded
  let gas := Gas.new tx_gas_limit
  let gas := (gas.record_cost tx_gas_limit).1
  let gas :=
    if instruction_result.is_ok then (gas.erase_cost remaining).record_refund refunded
    else if instruction_result.is_revert then gas.erase_cost remaining
    else gas
  let gas := if refund_enabled then gas.set_final_refund isLondon else gas
  frame_result.set_gas gas

/-- Embedding of `last_frame_return` from `handler/mainnet/execution.rs`:
the whole-transaction settlement, with refunds always enabled. -/
def last_frame_return (isLondon : Bool) (tx_gas_limit : Nat)
    (frame_result : FrameResult) : FrameResult :=
  frame_return_with_refund_flag isLondon tx_gas_limit frame_result true

/-- The gas ledger described point-wise by the settlement rules, before the
refund cap: limit is the transaction limit, `remaining` is restored from
the snapshot on success and revert, and the snapshot's refund is carried
over only on success. -/
def settled_gas_described (tx_gas_limit : Nat) (status : InstructionResult)
    (remaining : Nat) (refunded : Int) : Gas :=
  if status.is_ok then { limit := tx_gas_limit, remaining := remaining, refunded := refunded }
  else if status.is_revert then { limit := tx_gas_limit, remaining := remaining, refunded := 0 }
  else { limit := tx_gas_limit, remaining := 0, refunded := 0 }

/-- Modelled from the spec: a log record appended to the journaled state. -/
structure Log where
  address : Nat
  data : List Nat
  deriving DecidableEq, Repr

/-- Modelled from the spec: journal entries of the journaled state store;
only the account-destruction entry is distinguished, every other entry
kind is collapsed into `Other`. -/
inductive JournalEntry where
  | AccountDestroyed : Nat → Nat → Nat → JournalEntry
  | Other : Nat → JournalEntry
  deriving DecidableEq, Repr

/-- Modelled from the spec: the host (`Evm`) state visible to instructions
and hooks: the journaled state's log list and journal pages, plus the rest
of the evm context and the observer's own state collapsed into counters. -/
structure Host where
  logs : List Log
  journal : List (List JournalEntry)
  external_state : Nat
  evm_state : Nat
  deriving DecidableEq, Repr

/-- The inputs of a call request (the fields the instrumentation layer
pushes onto its call correlation stack). -/
structure CallInputs where
  target_address : Nat
  caller : Nat
  value : Nat
  input : List Nat
  gas_limit : Nat
  return_memory_offset : Nat × Nat
  deriving DecidableEq, Repr

/-- The inputs of a create request. -/
structure CreateInputs where
  caller : Nat
  value : Nat
  init_code : List Nat
  gas_limit : Nat
  deriving DecidableEq, Repr

/-- The pending action an instruction leaves in the interpreter for the
frame orchestrator: nothing, a sub-call request, or a sub-create request. -/
inductive InterpreterAction where
  | None : InterpreterAction
  | Call : CallInputs → InterpreterAction
  | Create : CreateInputs → InterpreterAction
  deriving DecidableEq, Repr

/-- Modelled from the spec: the frame-local interpreter state exposed to
the instrumentation layer: instruction pointer (raw pointer arithmetic is
modelled as an integer offset), current status, pending action, code,
operand stack, return data and the frame's gas ledger. -/
structure Interpreter where
  instruction_pointer : Int
  instruction_result : InstructionResult
  next_action : InterpreterAction
  code : List Nat
  stack : List Nat
  return_data : List Nat
  gas : Gas
  deriving DecidableEq, Repr

/-- The interpreter result a completed frame yields. -/
def Interpreter.as_interpreter_result (itp : Interpreter) : InterpreterResult :=
  { result := itp.instruction_result, output := itp.return_data, gas := itp.gas }

/-- The interpreter with its pointer rewound by one position (the pre-step
compensation for the caller's pre-increment, `instruction_pointer.sub(1)`
in the source). -/
def rewound (itp : Interpreter) : Interpreter :=
  { itp with instruction_pointer := itp.instruction_pointer - 1 }

/-- The interpreter with its pointer advanced by one position (the restore
after the observer's `step`, `instruction_pointer.add(1)` in the source). -/
def advanced (itp : Interpreter) : Interpreter :=
  { itp with instruction_pointer := itp.instruction_pointer + 1 }

/-- One (boxed) instruction handler: it may mutate the interpreter and the
host; `none` models a fatal abort (a panic of the wrapper). -/
abbrev Instruction := Interpreter → Host → Option (Interpreter × Host)

/-- The observer capability: every hook the `Inspector` trait exposes.
Hooks are pure state transformers over interpreter and host (the real
observer's own mutable state lives inside the host's `external_state`). -/
structure Inspector where
  initialize_interp : Interpreter → Host → Interpreter × Host
  step : Interpreter → Host → Interpreter × Host
  step_end : Interpreter → Host → Interpreter × Host
  call : Host → CallInputs → Host × CallInputs × Option CallOutcome
  call_end : Host → CallInputs → CallOutcome → Host × CallOutcome
  create : Host → CreateInputs → Host × CreateInputs × Option CreateOutcome
  create_end : Host → CreateInputs → CreateOutcome → Host × CreateOutcome
  log : Host → Log → Host
  selfdestruct : Host → Nat → Nat → Nat → Host

/-- The no-op observer: every hook returns its arguments unchanged and
overrides nothing. -/
def noOpInspector : Inspector where
  initialize_interp := fun i h => (i, h)
  step := fun i h => (i, h)
  step_end := fun i h => (i, h)
  call := fun h i => (h, i, Option.none)
  call_end := fun h _ o => (h, o)
  create := fun h i => (h, i, Option.none)
  create_end := fun h _ o => (h, o)
  log := fun h _ => h
  selfdestruct := fun h _ _ _ => h

/-- Embedding of `inspector_instruction` from
`inspector/handler_register.rs`: rewind the instruction pointer by one,
invoke `step`, short-circuit when the status is no longer `Continue`,
otherwise restore the pointer, run the wrapped instruction and invoke
`step_end`. -/
def inspector_instruction (insp : Inspector) (instruction : Instruction) : Instruction :=
  fun interpreter host =>
    let p := insp.step (rewound interpreter) host
    if p.1.instruction_result ≠ InstructionResult.Continue then some p
    else
      (instruction (advanced p.1) p.2).map (fun q => insp.step_end q.1 q.2)

/-- Embedding of the `inspect_log` closure from
`inspector/handler_register.rs`: run the (already wrapped) instruction,
and when the log list grew by exactly one, invoke the observer's `log`
hook with the last log (the source unwraps the last log, which cannot
fail there; the unreachable empty case is modelled as a fatal `none`). -/
def inspect_log (insp : Inspector) (old : Instruction) : Instruction :=
  fun interpreter host =>
    let old_log_len := host.logs.length
    match old interpreter host with
    | none => none
    | some (interpreter, host) =>
      if host.logs.length = old_log_len + 1 then
        match host.logs.getLast? with
        | some last_log => some (interpreter, insp.log host last_log)
        | none => none
      else some (interpreter, host)

/-- Embedding of the SELFDESTRUCT re-wrap from
`inspector/handler_register.rs`: run the (already wrapped) instruction,
unwrap the last journal page (fatal when the journal is empty, modelled as
`none`), and when its last entry is an account destruction, invoke the
observer's `selfdestruct` hook with that entry's fields. -/
def inspect_selfdestruct (insp : Inspector) (old : Instruction) : Instruction :=
  fun interpreter host =>
    match old interpreter host with
    | none => none
    | some (interpreter, host) =>
      match host.journal.getLast? with
      | none => none
      | some page =>
        match page.getLast? with
        | some (JournalEntry.AccountDestroyed address target had_balance) =>
          some (interpreter, insp.selfdestruct host address target had_balance)
        | _ => some (interpreter, host)

/-- The table-rebuilding part of `inspector_handle_register`: wrap every
entry with `inspector_instruction`, then re-wrap the five LOG opcodes
(0xa0 to 0xa4) with `inspect_log` and SELFDESTRUCT (0xff) with
`inspect_selfdestruct`. -/
def inspector_instruction_table (insp : Inspector) (table : Nat → Instruction) :
    Nat → Instruction :=
  fun op =>
    let wrapped := inspector_instruction insp (table op)
    if op = 0xa0 ∨ op = 0xa1 ∨ op = 0xa2 ∨ op = 0xa3 ∨ op = 0xa4 then
      inspect_log insp wrapped
    else if op = 0xff then inspect_selfdestruct insp wrapped
    else wrapped

/-- An activation frame: the interpreter state plus, for a call, the
checkpoint token and the caller-side return memory range, and, for a
create, the checkpoint token and the precomputed created address. -/
inductive Frame where
  | call : Interpreter → Nat → Nat × Nat → Frame
  | create : Interpreter → Nat → Nat → Frame
  deriving DecidableEq, Repr

/-- The frame's interpreter (`frame_data().interpreter`). -/
def Frame.interpreter : Frame → Interpreter
  | .call itp _ _ => itp
  | .create itp _ _ => itp

/-- Replace the frame's interpreter (`frame_data_mut().interpreter`). -/
def Frame.set_interpreter : Frame → Interpreter → Frame
  | .call _ checkpoint range, itp => .call itp checkpoint range
  | .create _ checkpoint addr, itp => .create itp checkpoint addr

/-- Whether a frame is a call frame. -/
def Frame.is_call : Frame → Bool
  | .call _ _ _ => true
  | .create _ _ _ => false

/-- `FrameOrResult`: either a live frame to interpret or an immediately
resolved frame result. -/
inductive FrameOrResult where
  | frame : Frame → FrameOrResult
  | result : FrameResult → FrameOrResult
  deriving DecidableEq, Repr

/-- The five independently replaceable execution handlers, over a handler
state `S` (the closures' captured state). `none` models a fatal abort. -/
structure ExecutionHandlers (S : Type) where
  call : S → Host → CallInputs → Option (S × Host × FrameOrResult)
  create : S → Host → CreateInputs → Option (S × Host × FrameOrResult)
  insert_call_outcome : S → Host → Interpreter → CallOutcome → Option (S × Host × Interpreter)
  insert_create_outcome : S → Host → Interpreter → CreateOutcome → Option (S × Host × Interpreter)
  last_frame_return : S → Host → FrameResult → Option (S × Host × FrameResult)

/-- Embedding of the handler-replacement part of
`inspector_handle_register` from `inspector/handler_register.rs`: returns
the wrapped instruction table and the five wrapped execution handlers.
The two correlation stacks the source shares through `Rc<RefCell<_>>` are
threaded as extra handler state alongside the previous state `S`. -/
def inspector_handle_register {S : Type} (insp : Inspector) (table : Nat → Instruction)
    (handlers : ExecutionHandlers S) :
    (Nat → Instruction) × ExecutionHandlers (S × List CallInputs × List CreateInputs) :=
  (inspector_instruction_table insp table,
   { call := fun st host inputs =>
       match st with
       | (s, cs, ds) =>
         match insp.call host inputs with
         | (host, inputs, some outcome) =>
           some ((s, inputs :: cs, ds), host, FrameOrResult.result (FrameResult.call outcome))
         | (host, inputs, none) =>
           match handlers.call s host inputs with
           | none => none
           | some (s, host, FrameOrResult.frame f) =>
             let q := insp.initialize_interp f.interpreter host
             some ((s, inputs :: cs, ds), q.2, FrameOrResult.frame (f.set_interpreter q.1))
           | some (s, host, FrameOrResult.result r) =>
             some ((s, inputs :: cs, ds), host, FrameOrResult.result r),
     create := fun st host inputs =>
       match st with
       | (s, cs, ds) =>
         match insp.create host inputs with
         | (host, inputs, some outcome) =>
           some ((s, cs, inputs :: ds), host, FrameOrResult.result (FrameResult.create outcome))
         | (host, inputs, none) =>
           match handlers.create s host inputs with
           | none => none
           | some (s, host, FrameOrResult.frame f) =>
             let q := insp.initialize_interp f.interpreter host
             some ((s, cs, inputs :: ds), q.2, FrameOrResult.frame (f.set_interpreter q.1))
           | some (s, host, FrameOrResult.result r) =>
             some ((s, cs, inputs :: ds), host, FrameOrResult.result r),
     insert_call_outcome := fun st host itp outcome =>
       match st with
       | (s, cs, ds) =>
         match cs with
         | [] => none
         | call_inputs :: cs =>
           let q := insp.call_end host call_inputs outcome
           (handlers.insert_call_outcome s q.1 itp q.2).map
             (fun r => ((r.1, cs, ds), r.2.1, r.2.2)),
     insert_create_outcome := fun st host itp outcome =>
       match st with
       | (s, cs, ds) =>
         match ds with
         | [] => none
         | create_inputs :: ds =>
           let q := insp.create_end host create_inputs outcome
           (handlers.insert_create_outcome s q.1 itp q.2).map
             (fun r => ((r.1, cs, ds), r.2.1, r.2.2)),
     last_frame_return := fun st host frame_result =>
       match st with
       | (s, cs, ds) =>
         match frame_result with
         | FrameResult.call outcome =>
           match cs with
           | [] => none
           | call_inputs :: cs =>
             let q := insp.call_end host call_inputs outcome
             (handlers.last_frame_return s q.1 (FrameResult.call q.2)).map
               (fun r => ((r.1, cs, ds), r.2.1, r.2.2))
         | FrameResult.create outcome =>
           match ds with
           | [] => none
           | create_inputs :: ds =>
             let q := insp.create_end host create_inputs outcome
             (handlers.last_frame_return s q.1 (FrameResult.create q.2)).map
               (fun r => ((r.1, cs, ds), r.2.1, r.2.2)) })

/-- Embedding of `call_return` from `handler/mainnet/execution.rs`: let
the state collaborator commit or roll back the frame's checkpoint based on
the status, then wrap the interpreter result with the stored return memory
range. The collaborator `evm.call_return` is not part of the two source
files and is passed as a parameter. -/
def call_return (evmCallReturn : Host → InterpreterResult → Nat → Host) (host : Host)
    (checkpoint : Nat) (return_memory_range : Nat × Nat)
    (interpreter_result : InterpreterResult) : Host × CallOutcome :=
  (evmCallReturn host interpreter_result checkpoint,
   { result := interpreter_result, memory_offset := return_memory_range })

/-- Embedding of `create_return` from `handler/mainnet/execution.rs`: let
the state collaborator `evm.create_return` (passed as a parameter, it may
rewrite the interpreter result) settle the frame, then attach the
precomputed created address to the outcome. -/
def create_return (evmCreateReturn : Host → InterpreterResult → Nat → Nat → Host × InterpreterResult)
    (host : Host) (created_address : Nat) (checkpoint : Nat)
    (interpreter_result : InterpreterResult) : Host × CreateOutcome :=
  let q := evmCreateReturn host interpreter_result created_address checkpoint
  (q.1, { result := q.2, address := some created_address })

/-- The state collaborators the frame exit points consume: commit/rollback
of a call frame's checkpoint, and settlement of a create frame (which may
rewrite the interpreter result). Neither lives in the two source files. -/
structure Collaborators where
  call_return_host : Host → InterpreterResult → Nat → Host
  create_return_host : Host → InterpreterResult → Nat → Nat → Host × InterpreterResult

/-- Produce a completed frame's `FrameResult` through the matching exit
point (`call_return` or `create_return`). -/
def frame_return_outcome (cb : Collaborators) (host : Host) : Frame → Host × FrameResult
  | Frame.call itp checkpoint range =>
    let q := call_return cb.call_return_host host checkpoint range itp.as_interpreter_result
    (q.1, FrameResult.call q.2)
  | Frame.create itp checkpoint addr =>
    let q := create_return cb.create_return_host host addr checkpoint itp.as_interpreter_result
    (q.1, FrameResult.create q.2)

/-- Modelled from the spec: fetch the opcode under the instruction pointer
(out of bounds, including a negative pointer, yields no opcode). -/
def fetchOp (itp : Interpreter) : Option Nat :=
  if 0 ≤ itp.instruction_pointer then itp.code.get? itp.instruction_pointer.toNat else none

/-- Modelled from the spec: the interpreter loop. While the status is
`Continue`, fetch the opcode, pre-increment the instruction pointer,
dispatch through the table, and repeat; running past the code halts with
`Stop`. Fuel bounds the loop; exhaustion is `none`. -/
def runLoop (table : Nat → Instruction) : Nat → Interpreter → Host → Option (Interpreter × Host)
  | 0, _, _ => none
  | Nat.succ fuel, itp, host =>
    if itp.instruction_result = InstructionResult.Continue then
      match fetchOp itp with
      | none => some ({ itp with instruction_result := InstructionResult.Stop }, host)
      | some op =>
        let itp := { itp with instruction_pointer := itp.instruction_pointer + 1 }
        match table op itp host with
        | none => none
        | some (itp, host) => runLoop table fuel itp host
    else some (itp, host)

/-- Deliver a completed child frame result into the parent interpreter
through the matching outcome-fold handler. -/
def insert_outcome {S : Type} (handlers : ExecutionHandlers S) (s : S) (host : Host)
    (itp : Interpreter) : FrameResult → Option (S × Host × Interpreter)
  | FrameResult.call o => handlers.insert_call_outcome s host itp o
  | FrameResult.create o => handlers.insert_create_outcome s host itp o

/-- The outermost frame of the current frame chain (the current leaf `f`
together with the suspended parents, immediate parent first). -/
def outermost (f : Frame) : List Frame → Frame
  | [] => f
  | parent :: rest => outermost parent rest

/-- Whether a frame-or-result is of call kind. -/
def FrameOrResult.kind_is_call : FrameOrResult → Bool
  | .frame f => f.is_call
  | .result r => r.is_call

/-- The number of call frames in a frame chain. -/
def count_call_frames (fs : List Frame) : Nat :=
  fs.countP (fun f => f.is_call)

/-- The number of create frames in a frame chain. -/
def count_create_frames (fs : List Frame) : Nat :=
  fs.countP (fun f => !f.is_call)

/-- Modelled from the spec: the nested-frame orchestration loop. Run the
leaf frame's interpreter; on a sub-call or sub-create request consult the
`call`/`create` handler (an immediate result is folded back into the
current frame, a live frame is pushed); on completion produce the frame's
result through the exit point and fold it into the parent, or return it
when the leaf is the outermost frame. Fuel bounds the number of frame
transitions. -/
def runFrames {S : Type} (table : Nat → Instruction) (cb : Collaborators)
    (handlers : ExecutionHandlers S) (loopFuel : Nat) :
    Nat → S → Host → List Frame → Frame → Option (S × Host × FrameResult)
  | 0, _, _, _, _ => none
  | Nat.succ fuel, s, host, stack, f =>
    match runLoop table loopFuel f.interpreter host with
    | none => none
    | some (itp, host) =>
      match itp.next_action with
      | InterpreterAction.Call inputs =>
        match handlers.call s host inputs with
        | none => none
        | some (s, host, FrameOrResult.frame g) =>
          runFrames table cb handlers loopFuel fuel s host (f.set_interpreter itp :: stack) g
        | some (s, host, FrameOrResult.result r) =>
          match insert_outcome handlers s host itp r with
          | none => none
          | some (s, host, itp) =>
            runFrames table cb handlers loopFuel fuel s host stack (f.set_interpreter itp)
      | InterpreterAction.Create inputs =>
        match handlers.create s host inputs with
        | none => none
        | some (s, host, FrameOrResult.frame g) =>
          runFrames table cb handlers loopFuel fuel s host (f.set_interpreter itp :: stack) g
        | some (s, host, FrameOrResult.result r) =>
          match insert_outcome handlers s host itp r with
          | none => none
          | some (s, host, itp) =>
            runFrames table cb handlers loopFuel fuel s host stack (f.set_interpreter itp)
      | InterpreterAction.None =>
        match frame_return_outcome cb host (f.set_interpreter itp) with
        | (host, r) =>
          match stack with
          | [] => some (s, host, r)
          | parent :: rest =>
            match insert_outcome handlers s host parent.interpreter r with
            | none => none
            | some (s, host, pitp) =>
              runFrames table cb handlers loopFuel fuel s host rest (parent.set_interpreter pitp)

/-- A transaction request: an outermost call or an outermost create. -/
inductive TxKind where
  | call : CallInputs → TxKind
  | create : CreateInputs → TxKind
  deriving DecidableEq, Repr

/-- Modelled from the spec: the transact-style entry point. Open the
outermost frame through the `call`/`create` handler (an immediate result
skips interpretation), run the nested-frame loop, and settle the final
result through the `last_frame_return` handler. -/
def transact {S : Type} (table : Nat → Instruction) (cb : Collaborators)
    (handlers : ExecutionHandlers S) (loopFuel fuel : Nat) (s : S) (host : Host)
    (tx : TxKind) : Option (S × Host × FrameResult) :=
  let first :=
    match tx with
    | TxKind.call i => handlers.call s host i
    | TxKind.create i => handlers.create s host i
  match first with
  | none => none
  | some (s, host, FrameOrResult.result r) => handlers.last_frame_return s host r
  | some (s, host, FrameOrResult.frame f) =>
    match runFrames table cb handlers loopFuel fuel s host [] f with
    | none => none
    | some (s, host, r) => handlers.last_frame_return s host r

/-- Concrete scenario value: a frame halting with `Stop`, 90 gas remaining
and 30 gas refund recorded (the refund scenario of the source tests). -/
def stop_result_90_30 : InterpreterResult :=
  { result := InstructionResult.Stop, output := [], gas := (Gas.new 90).record_refund 30 }

/-- Concrete scenario value: a frame halting with `OutOfGas`, 90 gas
remaining and 30 gas refund recorded. -/
def oog_result_90_30 : InterpreterResult :=
  { result := InstructionResult.OutOfGas, output := [], gas := (Gas.new 90).record_refund 30 }

/-- Concrete scenario value: a reverting interpreter result. -/
def revert_result_5 : InterpreterResult :=
  { result := InstructionResult.Revert, output := [], gas := Gas.new 5 }

/-- Concrete scenario value: the frame result of the refund scenario. -/
def refund_scenario_frame : FrameResult :=
  FrameResult.call { result := stop_result_90_30, memory_offset := (0, 0) }

/-- Concrete scenario value: an empty host. -/
def emptyHost : Host :=
  { logs := [], journal := [], external_state := 0, evm_state := 0 }

/-- Concrete scenario value: a fresh interpreter at pointer 0. -/
def itp0 : Interpreter :=
  { instruction_pointer := 0, instruction_result := InstructionResult.Continue,
    next_action := InterpreterAction.None, code := [], stack := [], return_data := [],
    gas := Gas.new 0 }

/-- Concrete scenario value: an instruction that runs the state through
unchanged. -/
def id_instruction : Instruction :=
  fun itp host => some (itp, host)

/-- Concrete scenario value: an instruction that aborts fatally. -/
def none_instruction : Instruction :=
  fun _ _ => none

/-- Concrete scenario value: an observer whose `step` halts execution with
`Stop`. -/
def halt_step_inspector : Inspector :=
  { noOpInspector with step := fun i h => ({ i with instruction_result := InstructionResult.Stop }, h) }

/-- Concrete scenario value: like `halt_step_inspector` but with a
different `step_end`, to exhibit that `step_end` is skipped. -/
def halt_step_inspector_alt : Inspector :=
  { halt_step_inspector with step_end := fun i h => ({ i with stack := 1 :: i.stack }, h) }

/-- Concrete scenario value: a host whose journal's last page already ends
with an account-destruction entry. -/
def stale_destruct_host : Host :=
  { logs := [], journal := [[JournalEntry.AccountDestroyed 1 2 3]],
    external_state := 0, evm_state := 0 }

/-- Concrete scenario value: an instruction that aborts with a stack
underflow and appends nothing to the journaled state. -/
def abort_instruction : Instruction :=
  fun itp host => some ({ itp with instruction_result := InstructionResult.StackUnderflow }, host)

/-- Concrete scenario value: an observer whose `selfdestruct` hook bumps a
counter, making its invocation observable. -/
def destruct_marking_inspector : Inspector :=
  { noOpInspector with
    selfdestruct := fun h _ _ _ => { h with external_state := h.external_state + 1 } }

/-- Concrete scenario value: an instruction that appends one log. -/
def append_log_instruction : Instruction :=
  fun itp host => some (itp, { host with logs := host.logs ++ [{ address := 5, data := [] }] })

/-- Concrete scenario value: an observer whose `log` hook bumps a counter. -/
def log_marking_inspector : Inspector :=
  { noOpInspector with log := fun h _ => { h with external_state := h.external_state + 7 } }

/-- Concrete scenario value: call inputs. -/
def inputs0 : CallInputs :=
  { target_address := 0, caller := 0, value := 0, input := [], gas_limit := 0,
    return_memory_offset := (0, 0) }

/-- Concrete scenario value: create inputs. -/
def cinputs0 : CreateInputs :=
  { caller := 0, value := 0, init_code := [], gas_limit := 0 }

/-- Concrete scenario value: a call outcome. -/
def stub_call_outcome : CallOutcome :=
  { result := revert_result_5, memory_offset := (0, 0) }

/-- Concrete scenario value: an observer whose `call` hook substitutes an
outcome, short-circuiting frame creation. -/
def substituting_inspector : Inspector :=
  { noOpInspector with call := fun h i => (h, i, some stub_call_outcome) }

/-- Concrete scenario value: handlers that resolve everything immediately. -/
def trivial_handlers : ExecutionHandlers Nat :=
  { call := fun s h _ => some (s + 1, h, FrameOrResult.result (FrameResult.call stub_call_outcome))
    create := fun s h _ => some (s + 1, h, FrameOrResult.result (FrameResult.call stub_call_outcome))
    insert_call_outcome := fun s h itp _ => some (s, h, itp)
    insert_create_outcome := fun s h itp _ => some (s, h, itp)
    last_frame_return := fun s h r => some (s, h, r) }

/-- Concrete scenario value: handlers that abort on every operation, used
to exhibit that a short-circuited decorator never consults the underlying
handler. -/
def fatal_handlers : ExecutionHandlers Nat :=
  { call := fun _ _ _ => none
    create := fun _ _ _ => none
    insert_call_outcome := fun _ _ _ _ => none
    insert_create_outcome := fun _ _ _ _ => none
    last_frame_return := fun _ _ _ => none }

/-- Concrete scenario value: an instruction table of pass-through
instructions. -/
def const_table : Nat → Instruction :=
  fun _ => id_instruction

/-- Concrete scenario value: a host with one (empty) journal page, as
after the initial checkpoint. -/
def init_host : Host :=
  { logs := [], journal := [[]], external_state := 0, evm_state := 0 }

/-- Concrete scenario value: state collaborators that leave the host and
interpreter result untouched. -/
def idCollab : Collaborators :=
  { call_return_host := fun h _ _ => h
    create_return_host := fun h ir _ _ => (h, ir) }

/-- Concrete scenario value: handlers that open a fresh frame of the
requested kind and fold outcomes without changes. -/
def frame_handlers : ExecutionHandlers Nat :=
  { call := fun s h _ => some (s, h, FrameOrResult.frame (Frame.call itp0 0 (0, 0)))
    create := fun s h _ => some (s, h, FrameOrResult.frame (Frame.create itp0 0 0))
    insert_call_outcome := fun s h itp _ => some (s, h, itp)
    insert_create_outcome := fun s h itp _ => some (s, h, itp)
    last_frame_return := fun s h r => some (s, h, r) }

/-! ## Theorems -/

/-- Reading back the gas written through `FrameResult.set_gas`. -/
theorem FrameResult.interpreter_result_set_gas (fr : FrameResult) (g : Gas) :
    (fr.set_gas g).interpreter_result.gas = g := by
  cases fr <;> rfl

/-- C1: the last-frame gas settlement resets the ledger to a fresh `Gas`
with the transaction limit and charges the full limit, then restores
`remaining` and carries the snapshot refund on a success status, restores
`remaining` only on a revert status, and restores nothing otherwise; the
result of the charge-then-restore sequence is exactly the point-wise
described settled ledger (with the refund cap applied afterwards when
refunds are enabled). -/
theorem frame_return_settlement_sequence (isLondon : Bool) (tx_gas_limit : Nat)
    (fr : FrameResult) (refund_enabled : Bool) :
    frame_return_with_refund_flag isLondon tx_gas_limit fr refund_enabled =
      fr.set_gas
        (let g := settled_gas_described tx_gas_limit fr.interpreter_result.result
          fr.interpreter_result.gas.remaining fr.interpreter_result.gas.refunded
         if refund_enabled then g.set_final_refund isLondon else g) := by
  unfold frame_return_with_refund_flag settled_gas_described
  cases h1 : fr.interpreter_result.result.is_ok <;>
    cases h2 : fr.interpreter_result.result.is_revert <;>
      simp [h1, h2, Gas.new, Gas.record_cost, Gas.erase_cost, Gas.record_refund]

/-- C2: with transaction gas limit 100, a frame halting with `Stop`,
`remaining = 90` and `refunded = 30`, the settled ledger spends 10 and,
under London rules, refunds `min 30 (10 / 5) = 2`; under pre-London rules
it refunds `min 30 (10 / 2) = 5`. -/
theorem refund_cap_concrete_scenario :
    (frame_return_with_refund_flag true 100 refund_scenario_frame
      true).interpreter_result.gas.spend = 10 ∧
    (frame_return_with_refund_flag true 100 refund_scenario_frame
      true).interpreter_result.gas.refunded = 2 ∧
    (frame_return_with_refund_flag true 100 refund_scenario_frame
      true).interpreter_result.gas.refunded = min (30 : Int) ((10 / 5 : Nat) : Int) ∧
    (frame_return_with_refund_flag false 100 refund_scenario_frame
      true).interpreter_result.gas.spend = 10 ∧
    (frame_return_with_refund_flag false 100 refund_scenario_frame
      true).interpreter_result.gas.refunded = min (30 : Int) ((10 / 2 : Nat) : Int) := by
  decide

/-- C3: on a status that is neither a success kind nor a revert kind, the
last-frame settlement forfeits all gas: `remaining` is 0, `spend()` equals
the transaction gas limit, and the refund counter of the settled ledger is
left unchanged at 0 (the snapshot refund is not carried over). -/
theorem error_status_forfeits_all_gas (isLondon : Bool) (tx_gas_limit : Nat)
    (fr : FrameResult)
    (hok : fr.interpreter_result.result.is_ok = false)
    (hrev : fr.interpreter_result.result.is_revert = false) :
    let g := (last_frame_return isLondon tx_gas_limit fr).interpreter_result.gas
    g.remaining = 0 ∧ g.spend = tx_gas_limit ∧ g.refunded = 0 := by
  unfold last_frame_return frame_return_with_refund_flag
  simp only [hok, hrev, if_false, Bool.false_eq_true, if_true,
    FrameResult.interpreter_result_set_gas]
  constructor
  · simp [Gas.new, Gas.record_cost, Gas.set_final_refund]
  constructor
  · simp [Gas.new, Gas.record_cost, Gas.set_final_refund, Gas.spend]
  · simp [Gas.new, Gas.record_cost, Gas.set_final_refund, Gas.spend]
    split <;> positivity

/-- Witness for C3 at a concrete out-of-gas frame. -/
theorem error_status_forfeits_all_gas_witness :
    let fr : FrameResult := FrameResult.call { result := oog_result_90_30, memory_offset := (0, 0) }
    let g := (last_frame_return true 100 fr).interpreter_result.gas
    g.remaining = 0 ∧ g.spend = 100 ∧ g.refunded = 0 :=
  error_status_forfeits_all_gas true 100 _ (by decide) (by decide)

/-- C4 counterexample: the create exit point attaches the created address
even on a revert status, so the claim that the Create outcome carries no
address on revert fails at this concrete input. -/
theorem create_return_address_on_revert :
    let outcome := (create_return (fun h ir _ _ => (h, ir)) emptyHost 7 0 revert_result_5).2
    outcome.address = some 7 ∧ ¬ outcome.address = none := by
  decide

/-- C4 amended: the create exit point always attaches the precomputed
created address to the Create outcome, whatever the execution status and
whatever the state collaborator does to the interpreter result. -/
theorem create_return_always_attaches_address
    (evmCreateReturn : Host → InterpreterResult → Nat → Nat → Host × InterpreterResult)
    (host : Host) (created_address checkpoint : Nat) (ir : InterpreterResult) :
    (create_return evmCreateReturn host created_address checkpoint ir).2.address
      = some created_address := rfl

/-- C5: the per-instruction decorator rewinds the pointer by one and
invokes `step`; when the post-step status is no longer `Continue` the
result is exactly the post-step state — the wrapped instruction and
`step_end` are both skipped (the outcome does not depend on either);
otherwise the pointer is restored, the original instruction runs, and
`step_end` is invoked on its result. -/
theorem inspector_instruction_step_semantics
    (insp insp' : Inspector) (instr instr' : Instruction) (itp : Interpreter) (host : Host)
    (hstep : insp'.step = insp.step) :
    (¬ (insp.step (rewound itp) host).1.instruction_result = InstructionResult.Continue →
      inspector_instruction insp instr itp host = some (insp.step (rewound itp) host) ∧
      inspector_instruction insp instr itp host = inspector_instruction insp' instr' itp host) ∧
    ((insp.step (rewound itp) host).1.instruction_result = InstructionResult.Continue →
      (instr (advanced (insp.step (rewound itp) host).1) (insp.step (rewound itp) host).2 = none →
        inspector_instruction insp instr itp host = none) ∧
      (∀ q, instr (advanced (insp.step (rewound itp) host).1) (insp.step (rewound itp) host).2
          = some q →
        inspector_instruction insp instr itp host = some (insp.step_end q.1 q.2))) := by
  refine ⟨fun h => ⟨?_, ?_⟩, fun h => ⟨fun hn => ?_, fun q hq => ?_⟩⟩
  · simp [inspector_instruction, h]
  · simp [inspector_instruction, hstep, h]
  · simp [inspector_instruction, h, hn]
  · simp [inspector_instruction, h, hq]

/-- Witness for C5: a concrete observer whose `step` halts with `Stop`
short-circuits the wrapped instruction and `step_end`. -/
theorem inspector_instruction_step_semantics_witness :
    inspector_instruction halt_step_inspector id_instruction itp0 emptyHost
        = some (halt_step_inspector.step (rewound itp0) emptyHost) ∧
    inspector_instruction halt_step_inspector id_instruction itp0 emptyHost
        = inspector_instruction halt_step_inspector_alt none_instruction itp0 emptyHost :=
  (inspector_instruction_step_semantics halt_step_inspector halt_step_inspector_alt
    id_instruction none_instruction itp0 emptyHost rfl).1 (by decide)

/-- C10: on the short-circuit path the wrapper returns the post-step state
unchanged — the pre-step decrement is never undone — and the wrapper
itself modified nothing but the pointer before handing the interpreter to
`step`; in particular, when `step` preserves the pointer it gave, the
returned pointer is still the entry pointer minus one. -/
theorem inspector_instruction_short_circuit_state
    (insp : Inspector) (instr : Instruction) (itp : Interpreter) (host : Host)
    (h : ¬ (insp.step (rewound itp) host).1.instruction_result = InstructionResult.Continue) :
    inspector_instruction insp instr itp host = some (insp.step (rewound itp) host) ∧
    (rewound itp).instruction_pointer = itp.instruction_pointer - 1 ∧
    (rewound itp).instruction_result = itp.instruction_result ∧
    (rewound itp).next_action = itp.next_action ∧
    (rewound itp).code = itp.code ∧
    (rewound itp).stack = itp.stack ∧
    (rewound itp).return_data = itp.return_data ∧
    (rewound itp).gas = itp.gas ∧
    ((insp.step (rewound itp) host).1.instruction_pointer = (rewound itp).instruction_pointer →
      ∀ q, inspector_instruction insp instr itp host = some q →
        q.1.instruction_pointer = itp.instruction_pointer - 1) := by
  refine ⟨?_, rfl, rfl, rfl, rfl, rfl, rfl, rfl, fun hp q hq => ?_⟩
  · simp [inspector_instruction, h]
  · simp [inspector_instruction, h] at hq
    rw [← hq]
    simpa [rewound] using hp

/-- Witness for C10 at a concrete halting observer. -/
theorem inspector_instruction_short_circuit_state_witness :
    inspector_instruction halt_step_inspector none_instruction itp0 emptyHost
        = some (halt_step_inspector.step (rewound itp0) emptyHost) ∧
    (rewound itp0).instruction_pointer = itp0.instruction_pointer - 1 ∧
    (rewound itp0).instruction_result = itp0.instruction_result ∧
    (rewound itp0).next_action = itp0.next_action ∧
    (rewound itp0).code = itp0.code ∧
    (rewound itp0).stack = itp0.stack ∧
    (rewound itp0).return_data = itp0.return_data ∧
    (rewound itp0).gas = itp0.gas ∧
    ((halt_step_inspector.step (rewound itp0) emptyHost).1.instruction_pointer
        = (rewound itp0).instruction_pointer →
      ∀ q, inspector_instruction halt_step_inspector none_instruction itp0 emptyHost = some q →
        q.1.instruction_pointer = itp0.instruction_pointer - 1) :=
  inspector_instruction_short_circuit_state halt_step_inspector none_instruction itp0 emptyHost
    (by decide)

/-- C9 counterexample: when the journal's last page already ends with an
account-destruction entry, the SELFDESTRUCT re-wrap invokes the observer's
`selfdestruct` hook even though the base instruction aborted with a stack
underflow and appended nothing — the "if and only if an entry was actually
appended" claim fails at this input. -/
theorem inspect_selfdestruct_stale_entry :
    abort_instruction itp0 stale_destruct_host
        = some ({ itp0 with instruction_result := InstructionResult.StackUnderflow },
                stale_destruct_host) ∧
    inspect_selfdestruct destruct_marking_inspector abort_instruction itp0 stale_destruct_host
        = some ({ itp0 with instruction_result := InstructionResult.StackUnderflow },
                { stale_destruct_host with external_state := 1 }) := by
  decide

/-- C9 amended: the LOG re-wrap invokes `log` with the newly appended
record exactly when the log list grew by one (so never when the
instruction aborted without appending); the SELFDESTRUCT re-wrap is fatal
when the journal is empty and otherwise invokes `selfdestruct` exactly
when the journal's last page ends with an account-destruction entry after
the instruction ran — which holds whenever the instruction appended one,
but also when a stale entry was already last. -/
theorem inspect_log_selfdestruct_amended
    (insp : Inspector) (old : Instruction) (itp i2 : Interpreter) (host h2 : Host)
    (hold : old itp host = some (i2, h2)) :
    (∀ l, h2.logs.length = host.logs.length + 1 → h2.logs.getLast? = some l →
      inspect_log insp old itp host = some (i2, insp.log h2 l)) ∧
    (h2.logs.length = host.logs.length + 1 → h2.logs ≠ []) ∧
    (h2.logs.length ≠ host.logs.length + 1 → inspect_log insp old itp host = some (i2, h2)) ∧
    (h2.journal = [] → inspect_selfdestruct insp old itp host = none) ∧
    (∀ page a t b, h2.journal.getLast? = some page →
      page.getLast? = some (JournalEntry.AccountDestroyed a t b) →
      inspect_selfdestruct insp old itp host = some (i2, insp.selfdestruct h2 a t b)) ∧
    (∀ page, h2.journal.getLast? = some page →
      (∀ a t b, ¬ page.getLast? = some (JournalEntry.AccountDestroyed a t b)) →
      inspect_selfdestruct insp old itp host = some (i2, h2)) := by
  refine ⟨fun l hlen hlast => ?_, fun hlen => ?_, fun hlen => ?_, fun hemp => ?_,
    fun page a t b hpage hentry => ?_, fun page hpage hnone => ?_⟩
  · simp [inspect_log, hold, hlen, hlast]
  · intro hnil
    rw [hnil] at hlen
    simp at hlen
  · simp [inspect_log, hold, hlen]
  · simp [inspect_selfdestruct, hold, hemp]
  · simp [inspect_selfdestruct, hold, hpage, hentry]
  · simp only [inspect_selfdestruct, hold, hpage]

/-- Witness for the amended C9: a concrete instruction that appends one
log makes the LOG re-wrap invoke the observer's `log` hook with it. -/
theorem inspect_log_selfdestruct_amended_witness :
    inspect_log log_marking_inspector append_log_instruction itp0 emptyHost
        = some (itp0, log_marking_inspector.log
            { emptyHost with logs := [{ address := 5, data := [] }] }
            { address := 5, data := [] }) :=
  (inspect_log_selfdestruct_amended log_marking_inspector append_log_instruction itp0 itp0
    emptyHost { emptyHost with logs := [{ address := 5, data := [] }] } rfl).1
    { address := 5, data := [] } (by decide) (by decide)

/-- C6: the call/create decorators first consult the observer; when it
substitutes an outcome, the (possibly mutated) inputs are pushed onto the
matching correlation stack and the outcome is returned as a resolved
result without ever consulting the underlying handler (the result is the
same for any underlying handlers); otherwise the inputs are pushed, the
previous handler is invoked, and a live frame gets `initialize_interp`
applied to its interpreter before being returned. -/
theorem inspector_call_create_decorator
    {S : Type} (insp : Inspector) (table : Nat → Instruction)
    (handlers handlers' : ExecutionHandlers S)
    (s : S) (cs : List CallInputs) (ds : List CreateInputs) (host : Host) :
    (∀ host' inputs' outcome (inputs : CallInputs),
      insp.call host inputs = (host', inputs', some outcome) →
      (inspector_handle_register insp table handlers).2.call (s, cs, ds) host inputs
          = some ((s, inputs' :: cs, ds), host',
                  FrameOrResult.result (FrameResult.call outcome)) ∧
      (inspector_handle_register insp table handlers).2.call (s, cs, ds) host inputs
          = (inspector_handle_register insp table handlers').2.call (s, cs, ds) host inputs) ∧
    (∀ host' inputs' (inputs : CallInputs),
      insp.call host inputs = (host', inputs', none) →
      (handlers.call s host' inputs' = none →
        (inspector_handle_register insp table handlers).2.call (s, cs, ds) host inputs
          = none) ∧
      (∀ s1 h1 r, handlers.call s host' inputs' = some (s1, h1, FrameOrResult.result r) →
        (inspector_handle_register insp table handlers).2.call (s, cs, ds) host inputs
          = some ((s1, inputs' :: cs, ds), h1, FrameOrResult.result r)) ∧
      (∀ s1 h1 f, handlers.call s host' inputs' = some (s1, h1, FrameOrResult.frame f) →
        (inspector_handle_register insp table handlers).2.call (s, cs, ds) host inputs
          = some ((s1, inputs' :: cs, ds),
                  (insp.initialize_interp f.interpreter h1).2,
                  FrameOrResult.frame
                    (f.set_interpreter (insp.initialize_interp f.interpreter h1).1)))) ∧
    (∀ host' inputs' outcome (inputs : CreateInputs),
      insp.create host inputs = (host', inputs', some outcome) →
      (inspector_handle_register insp table handlers).2.create (s, cs, ds) host inputs
          = some ((s, cs, inputs' :: ds), host',
                  FrameOrResult.result (FrameResult.create outcome)) ∧
      (inspector_handle_register insp table handlers).2.create (s, cs, ds) host inputs
          = (inspector_handle_register insp table handlers').2.create (s, cs, ds) host inputs) ∧
    (∀ host' inputs' (inputs : CreateInputs),
      insp.create host inputs = (host', inputs', none) →
      (handlers.create s host' inputs' = none →
        (inspector_handle_register insp table handlers).2.create (s, cs, ds) host inputs
          = none) ∧
      (∀ s1 h1 r, handlers.create s host' inputs' = some (s1, h1, FrameOrResult.result r) →
        (inspector_handle_register insp table handlers).2.create (s, cs, ds) host inputs
          = some ((s1, cs, inputs' :: ds), h1, FrameOrResult.result r)) ∧
      (∀ s1 h1 f, handlers.create s host' inputs' = some (s1, h1, FrameOrResult.frame f) →
        (inspector_handle_register insp table handlers).2.create (s, cs, ds) host inputs
          = some ((s1, cs, inputs' :: ds),
                  (insp.initialize_interp f.interpreter h1).2,
                  FrameOrResult.frame
                    (f.set_interpreter (insp.initialize_interp f.interpreter h1).1)))) := by
  refine ⟨fun host' inputs' outcome inputs h => ⟨?_, ?_⟩,
    fun host' inputs' inputs h => ⟨fun hn => ?_, fun s1 h1 r hr => ?_, fun s1 h1 f hf => ?_⟩,
    fun host' inputs' outcome inputs h => ⟨?_, ?_⟩,
    fun host' inputs' inputs h => ⟨fun hn => ?_, fun s1 h1 r hr => ?_, fun s1 h1 f hf => ?_⟩⟩ <;>
  simp [inspector_handle_register, h, *]

/-- Witness for C6: with a substituting observer, the wrapped call handler
pushes the inputs, returns the substitute outcome, and agrees with the
wrap of handlers that would abort if consulted. -/
theorem inspector_call_create_decorator_witness :
    (inspector_handle_register substituting_inspector const_table trivial_handlers).2.call
        (0, [], []) emptyHost inputs0
      = some ((0, [inputs0], []), emptyHost,
              FrameOrResult.result (FrameResult.call stub_call_outcome)) ∧
    (inspector_handle_register substituting_inspector const_table trivial_handlers).2.call
        (0, [], []) emptyHost inputs0
      = (inspector_handle_register substituting_inspector const_table fatal_handlers).2.call
          (0, [], []) emptyHost inputs0 :=
  (inspector_call_create_decorator substituting_inspector const_table trivial_handlers
    fatal_handlers 0 [] [] emptyHost).1 emptyHost inputs0 stub_call_outcome inputs0 rfl

/-- C7: each outcome-fold decorator pops exactly one entry from the
matching correlation stack — a pop on an empty stack is fatal (and the
underlying handler is then never consulted: any two underlying handler
sets give the same fatal result) — invokes `call_end`/`create_end` with
the popped entry and the outcome, and only then delegates to the
previously installed handler with the observer's replacement outcome. -/
theorem inspector_outcome_fold_decorator
    {S : Type} (insp : Inspector) (table : Nat → Instruction)
    (handlers handlers' : ExecutionHandlers S)
    (s : S) (cs : List CallInputs) (ds : List CreateInputs) (host : Host)
    (itp : Interpreter) (co : CallOutcome) (cro : CreateOutcome)
    (x : CallInputs) (y : CreateInputs) :
    ((inspector_handle_register insp table handlers).2.insert_call_outcome
        (s, [], ds) host itp co = none ∧
     (inspector_handle_register insp table handlers).2.insert_call_outcome
        (s, [], ds) host itp co
       = (inspector_handle_register insp table handlers').2.insert_call_outcome
          (s, [], ds) host itp co) ∧
    ((inspector_handle_register insp table handlers).2.insert_create_outcome
        (s, cs, []) host itp cro = none ∧
     (inspector_handle_register insp table handlers).2.insert_create_outcome
        (s, cs, []) host itp cro
       = (inspector_handle_register insp table handlers').2.insert_create_outcome
          (s, cs, []) host itp cro) ∧
    ((inspector_handle_register insp table handlers).2.last_frame_return
        (s, [], ds) host (FrameResult.call co) = none ∧
     (inspector_handle_register insp table handlers).2.last_frame_return
        (s, [], ds) host (FrameResult.call co)
       = (inspector_handle_register insp table handlers').2.last_frame_return
          (s, [], ds) host (FrameResult.call co)) ∧
    ((inspector_handle_register insp table handlers).2.last_frame_return
        (s, cs, []) host (FrameResult.create cro) = none ∧
     (inspector_handle_register insp table handlers).2.last_frame_return
        (s, cs, []) host (FrameResult.create cro)
       = (inspector_handle_register insp table handlers').2.last_frame_return
          (s, cs, []) host (FrameResult.create cro)) ∧
    ((inspector_handle_register insp table handlers).2.insert_call_outcome
        (s, x :: cs, ds) host itp co
      = (handlers.insert_call_outcome s (insp.call_end host x co).1 itp
          (insp.call_end host x co).2).map (fun r => ((r.1, cs, ds), r.2.1, r.2.2))) ∧
    ((inspector_handle_register insp table handlers).2.insert_create_outcome
        (s, cs, y :: ds) host itp cro
      = (handlers.insert_create_outcome s (insp.create_end host y cro).1 itp
          (insp.create_end host y cro).2).map (fun r => ((r.1, cs, ds), r.2.1, r.2.2))) ∧
    ((inspector_handle_register insp table handlers).2.last_frame_return
        (s, x :: cs, ds) host (FrameResult.call co)
      = (handlers.last_frame_return s (insp.call_end host x co).1
          (FrameResult.call (insp.call_end host x co).2)).map
            (fun r => ((r.1, cs, ds), r.2.1, r.2.2))) ∧
    ((inspector_handle_register insp table handlers).2.last_frame_return
        (s, cs, y :: ds) host (FrameResult.create cro)
      = (handlers.last_frame_return s (insp.create_end host y cro).1
          (FrameResult.create (insp.create_end host y cro).2)).map
            (fun r => ((r.1, cs, ds), r.2.1, r.2.2))) := by
  refine ⟨⟨?_, ?_⟩, ⟨?_, ?_⟩, ⟨?_, ?_⟩, ⟨?_, ?_⟩, ?_, ?_, ?_, ?_⟩ <;>
    simp [inspector_handle_register]

/-! ### Helper lemmas for the transparency proof -/

/-- Restoring the pointer after the rewind yields the original interpreter. -/
theorem advanced_rewound (itp : Interpreter) : advanced (rewound itp) = itp := by
  cases itp
  simp [advanced, rewound]

/-- Replacing a frame's interpreter with itself changes nothing. -/
theorem Frame.set_interpreter_interpreter (f : Frame) :
    f.set_interpreter f.interpreter = f := by
  cases f <;> rfl

/-- Replacing a frame's interpreter preserves its kind. -/
theorem Frame.is_call_set_interpreter (f : Frame) (itp : Interpreter) :
    (f.set_interpreter itp).is_call = f.is_call := by
  cases f <;> rfl

/-- The outermost frame's kind ignores interpreter replacement at the leaf. -/
theorem outermost_is_call_set_interpreter (f : Frame) (itp : Interpreter)
    (stack : List Frame) :
    (outermost (f.set_interpreter itp) stack).is_call = (outermost f stack).is_call := by
  cases stack <;> simp [outermost, Frame.is_call_set_interpreter]

/-- A frame's exit point produces a result of the frame's kind. -/
theorem frame_return_outcome_is_call (cb : Collaborators) (host : Host) (f : Frame) :
    (frame_return_outcome cb host f).2.is_call = f.is_call := by
  cases f <;> rfl

/-- With the no-op observer the per-instruction decorator is the identity
wrapper on interpreters whose status is `Continue`. -/
theorem noop_inspector_instruction_eq (instr : Instruction) (itp : Interpreter) (host : Host)
    (hcont : itp.instruction_result = InstructionResult.Continue) :
    inspector_instruction noOpInspector instr itp host = instr itp host := by
  cases itp with
  | mk ptr res act code stk rd gas =>
    cases hcont
    simp [inspector_instruction, noOpInspector, rewound, advanced, Int.sub_add_cancel]

/-- With the no-op observer the LOG re-wrap is the identity wrapper. -/
theorem noop_inspect_log_eq (instr : Instruction) (itp : Interpreter) (host : Host) :
    inspect_log noOpInspector instr itp host = instr itp host := by
  simp only [inspect_log]
  cases h : instr itp host with
  | none => rfl
  | some q =>
    cases q with
    | mk i2 h2 =>
      by_cases hl : h2.logs.length = host.logs.length + 1
      · have hne : h2.logs ≠ [] := by
          intro he
          rw [he] at hl
          simp at hl
        rcases Option.isSome_iff_exists.mp (List.getLast?_isSome.mpr hne) with ⟨l, hlast⟩
        simp [hl, hlast, noOpInspector]
      · simp [hl]

/-- With the no-op observer the SELFDESTRUCT re-wrap is the identity
wrapper on runs whose final journal is nonempty. -/
theorem noop_inspect_selfdestruct_eq (instr : Instruction) (itp : Interpreter) (host : Host)
    (hpres : ∀ i2 h2, instr itp host = some (i2, h2) → h2.journal ≠ []) :
    inspect_selfdestruct noOpInspector instr itp host = instr itp host := by
  simp only [inspect_selfdestruct]
  cases h : instr itp host with
  | none => rfl
  | some q =>
    cases q with
    | mk i2 h2 =>
      have hj : h2.journal ≠ [] := hpres i2 h2 h
      rcases Option.isSome_iff_exists.mp (List.getLast?_isSome.mpr hj) with ⟨page, hpage⟩
      rcases hp : page.getLast? with _ | e
      · simp [hpage, hp]
      · cases e with
        | AccountDestroyed a t b => simp [hpage, hp, noOpInspector]
        | Other n => simp [hpage, hp]

/-- With the no-op observer the whole wrapped instruction table agrees
with the base table on `Continue` states whose dispatch preserves journal
nonemptiness. -/
theorem noop_instruction_table_eq (table : Nat → Instruction) (op : Nat)
    (itp : Interpreter) (host : Host)
    (hcont : itp.instruction_result = InstructionResult.Continue)
    (hpres : ∀ i2 h2, table op itp host = some (i2, h2) → h2.journal ≠ []) :
    inspector_instruction_table noOpInspector table op itp host = table op itp host := by
  have hbase : inspector_instruction noOpInspector (table op) itp host = table op itp host :=
    noop_inspector_instruction_eq (table op) itp host hcont
  simp only [inspector_instruction_table]
  by_cases h1 : op = 0xa0 ∨ op = 0xa1 ∨ op = 0xa2 ∨ op = 0xa3 ∨ op = 0xa4
  · rw [if_pos h1, noop_inspect_log_eq, hbase]
  · by_cases h2 : op = 0xff
    · rw [if_neg h1, if_pos h2]
      have hp : ∀ i2 hh, inspector_instruction noOpInspector (table op) itp host
          = some (i2, hh) → hh.journal ≠ [] := by
        intro i2 hh heq
        refine hpres i2 hh ?_
        rw [← hbase]
        exact heq
      rw [noop_inspect_selfdestruct_eq _ _ _ hp, hbase]
    · rw [if_neg h1, if_neg h2]
      exact hbase

/-- The interpreter loop preserves journal nonemptiness when every
dispatched instruction does. -/
theorem runLoop_journal_nonempty (table : Nat → Instruction)
    (hpres : ∀ op i h i2 h2, h.journal ≠ [] → table op i h = some (i2, h2) → h2.journal ≠ []) :
    ∀ fuel itp host itp' host', host.journal ≠ [] →
      runLoop table fuel itp host = some (itp', host') → host'.journal ≠ [] := by
  intro fuel
  induction fuel with
  | zero => intro itp host itp' host' _ hrun; exact absurd hrun (by simp [runLoop])
  | succ fuel ih =>
    intro itp host itp' host' hj hrun
    rw [runLoop] at hrun
    by_cases hcont : itp.instruction_result = InstructionResult.Continue
    · rw [if_pos hcont] at hrun
      cases hfetch : fetchOp itp with
      | none =>
        rw [hfetch] at hrun
        simp only [Option.some.injEq] at hrun
        cases hrun
        exact hj
      | some op =>
        rw [hfetch] at hrun
        simp only at hrun
        cases hstep : table op { itp with instruction_pointer := itp.instruction_pointer + 1 }
            host with
        | none => rw [hstep] at hrun; exact absurd hrun (by simp)
        | some q =>
          rw [hstep] at hrun
          exact ih q.1 q.2 itp' host' (hpres op _ host q.1 q.2 hj (by rw [hstep])) hrun
    · rw [if_neg hcont] at hrun
      simp only [Option.some.injEq] at hrun
      cases hrun
      exact hj

/-- With the no-op observer the wrapped table runs the loop exactly like
the base table, provided dispatches preserve journal nonemptiness. -/
theorem noop_runLoop_eq (table : Nat → Instruction)
    (hpres : ∀ op i h i2 h2, h.journal ≠ [] → table op i h = some (i2, h2) → h2.journal ≠ []) :
    ∀ fuel itp host, host.journal ≠ [] →
      runLoop (inspector_instruction_table noOpInspector table) fuel itp host
        = runLoop table fuel itp host := by
  intro fuel
  induction fuel with
  | zero => intro itp host _; rfl
  | succ fuel ih =>
    intro itp host hj
    rw [runLoop, runLoop]
    by_cases hcont : itp.instruction_result = InstructionResult.Continue
    · rw [if_pos hcont, if_pos hcont]
      cases hfetch : fetchOp itp with
      | none => rfl
      | some op =>
        simp only
        have hcont2 : ({ itp with instruction_pointer := itp.instruction_pointer + 1 }
            : Interpreter).instruction_result = InstructionResult.Continue := hcont
        rw [noop_instruction_table_eq table op _ host hcont2
          (fun i2 h2 heq => hpres op _ host i2 h2 hj heq)]
        cases hstep : table op { itp with instruction_pointer := itp.instruction_pointer + 1 }
            host with
        | none => rfl
        | some q =>
          exact ih q.1 q.2 (hpres op _ host q.1 q.2 hj (by rw [hstep]))
    · rw [if_neg hcont, if_neg hcont]

/-- With the no-op observer the wrapped `call` handler only pushes the
inputs onto the call stack. -/
theorem noop_wrapped_call_eq {S : Type} (table : Nat → Instruction)
    (handlers : ExecutionHandlers S) (s : S) (cs : List CallInputs) (ds : List CreateInputs)
    (host : Host) (inputs : CallInputs) :
    (inspector_handle_register noOpInspector table handlers).2.call (s, cs, ds) host inputs
      = (handlers.call s host inputs).map (fun r => ((r.1, inputs :: cs, ds), r.2.1, r.2.2)) := by
  simp only [inspector_handle_register, noOpInspector]
  cases h : handlers.call s host inputs with
  | none => simp [h]
  | some r =>
    obtain ⟨s1, h1, fr⟩ := r
    cases fr with
    | frame f => simp [h, Frame.set_interpreter_interpreter]
    | result r => simp [h]

/-- With the no-op observer the wrapped `create` handler only pushes the
inputs onto the create stack. -/
theorem noop_wrapped_create_eq {S : Type} (table : Nat → Instruction)
    (handlers : ExecutionHandlers S) (s : S) (cs : List CallInputs) (ds : List CreateInputs)
    (host : Host) (inputs : CreateInputs) :
    (inspector_handle_register noOpInspector table handlers).2.create (s, cs, ds) host inputs
      = (handlers.create s host inputs).map (fun r => ((r.1, cs, inputs :: ds), r.2.1, r.2.2)) := by
  simp only [inspector_handle_register, noOpInspector]
  cases h : handlers.create s host inputs with
  | none => simp [h]
  | some r =>
    obtain ⟨s1, h1, fr⟩ := r
    cases fr with
    | frame f => simp [h, Frame.set_interpreter_interpreter]
    | result r => simp [h]

/-- With the no-op observer the wrapped `insert_call_outcome` handler only
pops one entry from the call stack. -/
theorem noop_wrapped_insert_call_eq {S : Type} (table : Nat → Instruction)
    (handlers : ExecutionHandlers S) (s : S) (x : CallInputs) (cs : List CallInputs)
    (ds : List CreateInputs) (host : Host) (itp : Interpreter) (o : CallOutcome) :
    (inspector_handle_register noOpInspector table handlers).2.insert_call_outcome
        (s, x :: cs, ds) host itp o
      = (handlers.insert_call_outcome s host itp o).map
          (fun r => ((r.1, cs, ds), r.2.1, r.2.2)) := by
  simp [inspector_handle_register, noOpInspector]

/-- With the no-op observer the wrapped `insert_create_outcome` handler
only pops one entry from the create stack. -/
theorem noop_wrapped_insert_create_eq {S : Type} (table : Nat → Instruction)
    (handlers : ExecutionHandlers S) (s : S) (cs : List CallInputs) (y : CreateInputs)
    (ds : List CreateInputs) (host : Host) (itp : Interpreter) (o : CreateOutcome) :
    (inspector_handle_register noOpInspector table handlers).2.insert_create_outcome
        (s, cs, y :: ds) host itp o
      = (handlers.insert_create_outcome s host itp o).map
          (fun r => ((r.1, cs, ds), r.2.1, r.2.2)) := by
  simp [inspector_handle_register, noOpInspector]

/-- With the no-op observer the wrapped `last_frame_return` handler only
pops one entry from the call stack on a call result. -/
theorem noop_wrapped_last_call_eq {S : Type} (table : Nat → Instruction)
    (handlers : ExecutionHandlers S) (s : S) (x : CallInputs) (cs : List CallInputs)
    (ds : List CreateInputs) (host : Host) (co : CallOutcome) :
    (inspector_handle_register noOpInspector table handlers).2.last_frame_return
        (s, x :: cs, ds) host (FrameResult.call co)
      = (handlers.last_frame_return s host (FrameResult.call co)).map
          (fun r => ((r.1, cs, ds), r.2.1, r.2.2)) := by
  simp [inspector_handle_register, noOpInspector]

/-- With the no-op observer the wrapped `last_frame_return` handler only
pops one entry from the create stack on a create result. -/
theorem noop_wrapped_last_create_eq {S : Type} (table : Nat → Instruction)
    (handlers : ExecutionHandlers S) (s : S) (cs : List CallInputs)
    (y : CreateInputs) (ds : List CreateInputs) (host : Host) (cro : CreateOutcome) :
    (inspector_handle_register noOpInspector table handlers).2.last_frame_return
        (s, cs, y :: ds) host (FrameResult.create cro)
      = (handlers.last_frame_return s host (FrameResult.create cro)).map
          (fun r => ((r.1, cs, ds), r.2.1, r.2.2)) := by
  simp [inspector_handle_register, noOpInspector]

/-- Unfolding the call-frame count over a cons. -/
theorem count_call_frames_cons (x : Frame) (l : List Frame) :
    count_call_frames (x :: l) = count_call_frames l + (if x.is_call then 1 else 0) := by
  simp [count_call_frames, List.countP_cons]

/-- Unfolding the create-frame count over a cons. -/
theorem count_create_frames_cons (x : Frame) (l : List Frame) :
    count_create_frames (x :: l) = count_create_frames l + (if x.is_call then 0 else 1) := by
  simp only [count_create_frames, List.countP_cons]
  cases h : x.is_call <;> simp [h]

/-- The exit points preserve journal nonemptiness when the collaborators
do. -/
theorem frame_return_outcome_journal (cb : Collaborators) (host : Host) (f : Frame)
    (hpres_cb1 : ∀ h ir cp, h.journal ≠ [] → (cb.call_return_host h ir cp).journal ≠ [])
    (hpres_cb2 : ∀ h ir a cp, h.journal ≠ [] → (cb.create_return_host h ir a cp).1.journal ≠ [])
    (hj : host.journal ≠ []) :
    (frame_return_outcome cb host f).1.journal ≠ [] := by
  cases f with
  | call itp cp range => exact hpres_cb1 host itp.as_interpreter_result cp hj
  | create itp cp addr => exact hpres_cb2 host itp.as_interpreter_result addr cp hj

/-- The frame orchestration loop behaves identically under the no-op
instrumentation, up to the extra correlation-stack state: whenever the
base run yields an outcome, the wrapped run yields the same outcome with
one pending entry left for the outermost frame, and fatal/exhausted runs
agree. -/
theorem noop_runFrames_eq {S : Type} (table : Nat → Instruction) (cb : Collaborators)
    (handlers : ExecutionHandlers S) (loopFuel : Nat)
    (hpres_table : ∀ op i h i2 h2, h.journal ≠ [] → table op i h = some (i2, h2) →
      h2.journal ≠ [])
    (hpres_call : ∀ s h i s2 h2 fr, h.journal ≠ [] → handlers.call s h i = some (s2, h2, fr) →
      h2.journal ≠ [])
    (hpres_create : ∀ s h i s2 h2 fr, h.journal ≠ [] →
      handlers.create s h i = some (s2, h2, fr) → h2.journal ≠ [])
    (hpres_ico : ∀ s h itp o s2 h2 itp2, h.journal ≠ [] →
      handlers.insert_call_outcome s h itp o = some (s2, h2, itp2) → h2.journal ≠ [])
    (hpres_icr : ∀ s h itp o s2 h2 itp2, h.journal ≠ [] →
      handlers.insert_create_outcome s h itp o = some (s2, h2, itp2) → h2.journal ≠ [])
    (hpres_cb1 : ∀ h ir cp, h.journal ≠ [] → (cb.call_return_host h ir cp).journal ≠ [])
    (hpres_cb2 : ∀ h ir a cp, h.journal ≠ [] → (cb.create_return_host h ir a cp).1.journal ≠ [])
    (hwf_call : ∀ s h i s2 h2 fr, handlers.call s h i = some (s2, h2, fr) →
      fr.kind_is_call = true)
    (hwf_create : ∀ s h i s2 h2 fr, handlers.create s h i = some (s2, h2, fr) →
      fr.kind_is_call = false) :
    ∀ fuel s host stack f (cs0 : List CallInputs) (ds0 : List CreateInputs)
      (A : List CallInputs) (B : List CreateInputs),
      host.journal ≠ [] →
      A.length = count_call_frames (f :: stack) →
      B.length = count_create_frames (f :: stack) →
      (runFrames table cb handlers loopFuel fuel s host stack f = none →
        runFrames (inspector_instruction_table noOpInspector table) cb
          (inspector_handle_register noOpInspector table handlers).2 loopFuel fuel
          (s, A ++ cs0, B ++ ds0) host stack f = none) ∧
      (∀ s' host' r,
        runFrames table cb handlers loopFuel fuel s host stack f = some (s', host', r) →
        ∃ A' B',
          runFrames (inspector_instruction_table noOpInspector table) cb
            (inspector_handle_register noOpInspector table handlers).2 loopFuel fuel
            (s, A ++ cs0, B ++ ds0) host stack f
            = some ((s', A' ++ cs0, B' ++ ds0), host', r) ∧
          A'.length = (if (outermost f stack).is_call then 1 else 0) ∧
          B'.length = (if (outermost f stack).is_call then 0 else 1) ∧
          r.is_call = (outermost f stack).is_call ∧
          host'.journal ≠ []) := by
  intro fuel
  induction fuel with
  | zero =>
    intro s host stack f cs0 ds0 A B hj hA hB
    constructor
    · intro _
      rfl
    · intro s' host' r hrun
      exact Option.noConfusion hrun
  | succ fuel ih =>
    intro s host stack f cs0 ds0 A B hj hA hB
    have hloopeq : runLoop (inspector_instruction_table noOpInspector table) loopFuel
        f.interpreter host = runLoop table loopFuel f.interpreter host :=
      noop_runLoop_eq table hpres_table loopFuel f.interpreter host hj
    cases hloop : runLoop table loopFuel f.interpreter host with
    | none =>
      constructor
      · intro _
        simp only [runFrames, hloopeq, hloop]
      · intro s' host' r hrun
        simp only [runFrames, hloop] at hrun
        exact Option.noConfusion hrun
    | some p =>
      obtain ⟨itp, host1⟩ := p
      have hj1 : host1.journal ≠ [] :=
        runLoop_journal_nonempty table hpres_table loopFuel f.interpreter host itp host1 hj hloop
      cases hact : itp.next_action with
      | Call inputs =>
        cases hcall : handlers.call s host1 inputs with
        | none =>
          constructor
          · intro _
            simp only [runFrames, hloopeq, hloop, hact, noop_wrapped_call_eq, hcall,
              Option.map_none']
          · intro s' host' r hrun
            simp only [runFrames, hloop, hact, hcall] at hrun
            exact Option.noConfusion hrun
        | some t =>
          obtain ⟨s1, h1, fr⟩ := t
          have hj2 : h1.journal ≠ [] := hpres_call s host1 inputs s1 h1 fr hj1 hcall
          cases fr with
          | frame g =>
            have hgcall : g.is_call = true := by
              simpa [FrameOrResult.kind_is_call] using
                hwf_call s host1 inputs s1 h1 (FrameOrResult.frame g) hcall
            have hA2 : (inputs :: A).length
                = count_call_frames (g :: f.set_interpreter itp :: stack) := by
              simp [List.length_cons, count_call_frames_cons,
                Frame.is_call_set_interpreter, hgcall, hA]
            have hB2 : B.length
                = count_create_frames (g :: f.set_interpreter itp :: stack) := by
              simp [count_create_frames_cons, Frame.is_call_set_interpreter,
                hgcall, hB]
            have hkind : (outermost g (f.set_interpreter itp :: stack)).is_call
                = (outermost f stack).is_call := by
              show (outermost (f.set_interpreter itp) stack).is_call = _
              exact outermost_is_call_set_interpreter f itp stack
            have IH := ih s1 h1 (f.set_interpreter itp :: stack) g cs0 ds0
              (inputs :: A) B hj2 hA2 hB2
            constructor
            · intro hnone
              simp only [runFrames, hloop, hact, hcall] at hnone
              have := IH.1 hnone
              simp only [runFrames, hloopeq, hloop, hact, noop_wrapped_call_eq, hcall,
                Option.map_some']
              simpa [List.cons_append] using this
            · intro s' host' r hrun
              simp only [runFrames, hloop, hact, hcall] at hrun
              obtain ⟨A', B', hw, hA1, hB1, hr1, hj'⟩ := IH.2 s' host' r hrun
              refine ⟨A', B', ?_, ?_, ?_, ?_, hj'⟩
              · simp only [runFrames, hloopeq, hloop, hact, noop_wrapped_call_eq, hcall,
                  Option.map_some']
                simpa [List.cons_append] using hw
              · rw [hA1, hkind]
              · rw [hB1, hkind]
              · rw [hr1, hkind]
          | result r0 =>
            have hr0call : r0.is_call = true := by
              simpa [FrameOrResult.kind_is_call] using
                hwf_call s host1 inputs s1 h1 (FrameOrResult.result r0) hcall
            cases r0 with
            | create o => exact absurd hr0call (by simp [FrameResult.is_call])
            | call o =>
              cases hins : handlers.insert_call_outcome s1 h1 itp o with
              | none =>
                constructor
                · intro _
                  simp only [runFrames, hloopeq, hloop, hact, noop_wrapped_call_eq, hcall,
                    Option.map_some', insert_outcome, noop_wrapped_insert_call_eq, hins,
                    Option.map_none']
                · intro s' host' r hrun
                  simp only [runFrames, hloop, hact, hcall, insert_outcome, hins] at hrun
                  exact Option.noConfusion hrun
              | some t2 =>
                obtain ⟨s2, h2, itp2⟩ := t2
                have hj3 : h2.journal ≠ [] :=
                  hpres_ico s1 h1 itp o s2 h2 itp2 hj2 hins
                have hA2 : A.length = count_call_frames (f.set_interpreter itp2 :: stack) := by
                  rw [hA]
                  simp [count_call_frames, List.countP_cons, Frame.is_call_set_interpreter]
                have hB2 : B.length = count_create_frames (f.set_interpreter itp2 :: stack) := by
                  rw [hB]
                  simp [count_create_frames, List.countP_cons, Frame.is_call_set_interpreter]
                have hkind : (outermost (f.set_interpreter itp2) stack).is_call
                    = (outermost f stack).is_call :=
                  outermost_is_call_set_interpreter f itp2 stack
                have IH := ih s2 h2 stack (f.set_interpreter itp2) cs0 ds0 A B hj3 hA2 hB2
                constructor
                · intro hnone
                  simp only [runFrames, hloop, hact, hcall, insert_outcome, hins] at hnone
                  have := IH.1 hnone
                  simp only [runFrames, hloopeq, hloop, hact, noop_wrapped_call_eq, hcall,
                    Option.map_some', insert_outcome, noop_wrapped_insert_call_eq, hins]
                  exact this
                · intro s' host' r hrun
                  simp only [runFrames, hloop, hact, hcall, insert_outcome, hins] at hrun
                  obtain ⟨A', B', hw, hA1, hB1, hr1, hj'⟩ := IH.2 s' host' r hrun
                  refine ⟨A', B', ?_, ?_, ?_, ?_, hj'⟩
                  · simp only [runFrames, hloopeq, hloop, hact, noop_wrapped_call_eq, hcall,
                      Option.map_some', insert_outcome, noop_wrapped_insert_call_eq, hins]
                    exact hw
                  · rw [hA1, hkind]
                  · rw [hB1, hkind]
                  · rw [hr1, hkind]
      | Create inputs =>
        cases hcall : handlers.create s host1 inputs with
        | none =>
          constructor
          · intro _
            simp only [runFrames, hloopeq, hloop, hact, noop_wrapped_create_eq, hcall,
              Option.map_none']
          · intro s' host' r hrun
            simp only [runFrames, hloop, hact, hcall] at hrun
            exact Option.noConfusion hrun
        | some t =>
          obtain ⟨s1, h1, fr⟩ := t
          have hj2 : h1.journal ≠ [] := hpres_create s host1 inputs s1 h1 fr hj1 hcall
          cases fr with
          | frame g =>
            have hgcall : g.is_call = false := by
              simpa [FrameOrResult.kind_is_call] using
                hwf_create s host1 inputs s1 h1 (FrameOrResult.frame g) hcall
            have hA2 : A.length
                = count_call_frames (g :: f.set_interpreter itp :: stack) := by
              simp [count_call_frames_cons, Frame.is_call_set_interpreter,
                hgcall, hA]
            have hB2 : (inputs :: B).length
                = count_create_frames (g :: f.set_interpreter itp :: stack) := by
              simp [List.length_cons, count_create_frames_cons,
                Frame.is_call_set_interpreter, hgcall, hB]
            have hkind : (outermost g (f.set_interpreter itp :: stack)).is_call
                = (outermost f stack).is_call := by
              show (outermost (f.set_interpreter itp) stack).is_call = _
              exact outermost_is_call_set_interpreter f itp stack
            have IH := ih s1 h1 (f.set_interpreter itp :: stack) g cs0 ds0
              A (inputs :: B) hj2 hA2 hB2
            constructor
            · intro hnone
              simp only [runFrames, hloop, hact, hcall] at hnone
              have := IH.1 hnone
              simp only [runFrames, hloopeq, hloop, hact, noop_wrapped_create_eq, hcall,
                Option.map_some']
              simpa [List.cons_append] using this
            · intro s' host' r hrun
              simp only [runFrames, hloop, hact, hcall] at hrun
              obtain ⟨A', B', hw, hA1, hB1, hr1, hj'⟩ := IH.2 s' host' r hrun
              refine ⟨A', B', ?_, ?_, ?_, ?_, hj'⟩
              · simp only [runFrames, hloopeq, hloop, hact, noop_wrapped_create_eq, hcall,
                  Option.map_some']
                simpa [List.cons_append] using hw
              · rw [hA1, hkind]
              · rw [hB1, hkind]
              · rw [hr1, hkind]
          | result r0 =>
            have hr0call : r0.is_call = false := by
              simpa [FrameOrResult.kind_is_call] using
                hwf_create s host1 inputs s1 h1 (FrameOrResult.result r0) hcall
            cases r0 with
            | call o => exact absurd hr0call (by simp [FrameResult.is_call])
            | create o =>
              cases hins : handlers.insert_create_outcome s1 h1 itp o with
              | none =>
                constructor
                · intro _
                  simp only [runFrames, hloopeq, hloop, hact, noop_wrapped_create_eq, hcall,
                    Option.map_some', insert_outcome, noop_wrapped_insert_create_eq, hins,
                    Option.map_none']
                · intro s' host' r hrun
                  simp only [runFrames, hloop, hact, hcall, insert_outcome, hins] at hrun
                  exact Option.noConfusion hrun
              | some t2 =>
                obtain ⟨s2, h2, itp2⟩ := t2
                have hj3 : h2.journal ≠ [] :=
                  hpres_icr s1 h1 itp o s2 h2 itp2 hj2 hins
                have hA2 : A.length = count_call_frames (f.set_interpreter itp2 :: stack) := by
                  rw [hA]
                  simp [count_call_frames, List.countP_cons, Frame.is_call_set_interpreter]
                have hB2 : B.length = count_create_frames (f.set_interpreter itp2 :: stack) := by
                  rw [hB]
                  simp [count_create_frames, List.countP_cons, Frame.is_call_set_interpreter]
                have hkind : (outermost (f.set_interpreter itp2) stack).is_call
                    = (outermost f stack).is_call :=
                  outermost_is_call_set_interpreter f itp2 stack
                have IH := ih s2 h2 stack (f.set_interpreter itp2) cs0 ds0 A B hj3 hA2 hB2
                constructor
                · intro hnone
                  simp only [runFrames, hloop, hact, hcall, insert_outcome, hins] at hnone
                  have := IH.1 hnone
                  simp only [runFrames, hloopeq, hloop, hact, noop_wrapped_create_eq, hcall,
                    Option.map_some', insert_outcome, noop_wrapped_insert_create_eq, hins]
                  exact this
                · intro s' host' r hrun
                  simp only [runFrames, hloop, hact, hcall, insert_outcome, hins] at hrun
                  obtain ⟨A', B', hw, hA1, hB1, hr1, hj'⟩ := IH.2 s' host' r hrun
                  refine ⟨A', B', ?_, ?_, ?_, ?_, hj'⟩
                  · simp only [runFrames, hloopeq, hloop, hact, noop_wrapped_create_eq, hcall,
                      Option.map_some', insert_outcome, noop_wrapped_insert_create_eq, hins]
                    exact hw
                  · rw [hA1, hkind]
                  · rw [hB1, hkind]
                  · rw [hr1, hkind]
      | None =>
        rcases hfr : frame_return_outcome cb host1 (f.set_interpreter itp) with ⟨host2, r⟩
        have hj2 : host2.journal ≠ [] := by
          have := frame_return_outcome_journal cb host1 (f.set_interpreter itp)
            hpres_cb1 hpres_cb2 hj1
          rw [hfr] at this
          exact this
        have hrkind : r.is_call = f.is_call := by
          have := frame_return_outcome_is_call cb host1 (f.set_interpreter itp)
          rw [hfr] at this
          rw [this, Frame.is_call_set_interpreter]
        cases stack with
        | nil =>
          constructor
          · intro hnone
            simp only [runFrames, hloop, hact, hfr] at hnone
            exact Option.noConfusion hnone
          · intro s' host' r' hrun
            simp only [runFrames, hloop, hact, hfr, Option.some.injEq, Prod.mk.injEq] at hrun
            obtain ⟨hs, hh, hr⟩ := hrun
            refine ⟨A, B, ?_, ?_, ?_, ?_, ?_⟩
            · simp only [runFrames, hloopeq, hloop, hact, hfr, hs, hh, hr]
            · rw [hA, count_call_frames_cons]
              simp [count_call_frames, outermost]
            · rw [hB, count_create_frames_cons]
              simp [count_create_frames, outermost]
            · rw [← hr, hrkind]
              simp [outermost]
            · rw [← hh]
              exact hj2
        | cons parent rest =>
          cases r with
          | call o =>
            have hfcall : f.is_call = true := by
              simpa [FrameResult.is_call] using hrkind.symm
            cases A with
            | nil =>
              exfalso
              simp [count_call_frames, List.countP_cons, hfcall] at hA
            | cons a A1 =>
              have hA1len : A1.length = count_call_frames (parent :: rest) := by
                rw [count_call_frames_cons, hfcall] at hA
                simp at hA
                omega
              cases hins : handlers.insert_call_outcome s host2 parent.interpreter o with
              | none =>
                constructor
                · intro _
                  simp only [runFrames, hloopeq, hloop, hact, hfr, List.cons_append,
                    insert_outcome, noop_wrapped_insert_call_eq, hins, Option.map_none']
                · intro s' host' r' hrun
                  simp only [runFrames, hloop, hact, hfr, insert_outcome, hins] at hrun
                  exact Option.noConfusion hrun
              | some t2 =>
                obtain ⟨s2, h3, pitp⟩ := t2
                have hj3 : h3.journal ≠ [] :=
                  hpres_ico s host2 parent.interpreter o s2 h3 pitp hj2 hins
                have hA2 : A1.length
                    = count_call_frames (parent.set_interpreter pitp :: rest) := by
                  rw [hA1len]
                  simp [count_call_frames, List.countP_cons, Frame.is_call_set_interpreter]
                have hB2 : B.length
                    = count_create_frames (parent.set_interpreter pitp :: rest) := by
                  simp [count_create_frames, List.countP_cons, hfcall] at hB
                  rw [hB]
                  simp [count_create_frames, List.countP_cons, Frame.is_call_set_interpreter]
                have hkind : (outermost (parent.set_interpreter pitp) rest).is_call
                    = (outermost f (parent :: rest)).is_call := by
                  show _ = (outermost parent rest).is_call
                  exact outermost_is_call_set_interpreter parent pitp rest
                have IH := ih s2 h3 rest (parent.set_interpreter pitp) cs0 ds0 A1 B hj3 hA2 hB2
                constructor
                · intro hnone
                  simp only [runFrames, hloop, hact, hfr, insert_outcome, hins] at hnone
                  have := IH.1 hnone
                  simp only [runFrames, hloopeq, hloop, hact, hfr, List.cons_append,
                    insert_outcome, noop_wrapped_insert_call_eq, hins, Option.map_some']
                  exact this
                · intro s' host' r' hrun
                  simp only [runFrames, hloop, hact, hfr, insert_outcome, hins] at hrun
                  obtain ⟨A', B', hw, hA3, hB3, hr3, hj'⟩ := IH.2 s' host' r' hrun
                  refine ⟨A', B', ?_, ?_, ?_, ?_, hj'⟩
                  · simp only [runFrames, hloopeq, hloop, hact, hfr, List.cons_append,
                      insert_outcome, noop_wrapped_insert_call_eq, hins, Option.map_some']
                    exact hw
                  · rw [hA3, hkind]
                  · rw [hB3, hkind]
                  · rw [hr3, hkind]
          | create o =>
            have hfcreate : f.is_call = false := by
              simpa [FrameResult.is_call] using hrkind.symm
            cases B with
            | nil =>
              exfalso
              simp [count_create_frames, List.countP_cons, hfcreate] at hB
            | cons b B1 =>
              have hB1len : B1.length = count_create_frames (parent :: rest) := by
                rw [count_create_frames_cons, hfcreate] at hB
                simp at hB
                omega
              cases hins : handlers.insert_create_outcome s host2 parent.interpreter o with
              | none =>
                constructor
                · intro _
                  simp only [runFrames, hloopeq, hloop, hact, hfr, List.cons_append,
                    insert_outcome, noop_wrapped_insert_create_eq, hins, Option.map_none']
                · intro s' host' r' hrun
                  simp only [runFrames, hloop, hact, hfr, insert_outcome, hins] at hrun
                  exact Option.noConfusion hrun
              | some t2 =>
                obtain ⟨s2, h3, pitp⟩ := t2
                have hj3 : h3.journal ≠ [] :=
                  hpres_icr s host2 parent.interpreter o s2 h3 pitp hj2 hins
                have hA2 : A.length
                    = count_call_frames (parent.set_interpreter pitp :: rest) := by
                  simp [count_call_frames, List.countP_cons, hfcreate] at hA
                  rw [hA]
                  simp [count_call_frames, List.countP_cons, Frame.is_call_set_interpreter]
                have hB2 : B1.length
                    = count_create_frames (parent.set_interpreter pitp :: rest) := by
                  rw [hB1len]
                  simp [count_create_frames, List.countP_cons, Frame.is_call_set_interpreter]
                have hkind : (outermost (parent.set_interpreter pitp) rest).is_call
                    = (outermost f (parent :: rest)).is_call := by
                  show _ = (outermost parent rest).is_call
                  exact outermost_is_call_set_interpreter parent pitp rest
                have IH := ih s2 h3 rest (parent.set_interpreter pitp) cs0 ds0 A B1 hj3 hA2 hB2
                constructor
                · intro hnone
                  simp only [runFrames, hloop, hact, hfr, insert_outcome, hins] at hnone
                  have := IH.1 hnone
                  simp only [runFrames, hloopeq, hloop, hact, hfr, List.cons_append,
                    insert_outcome, noop_wrapped_insert_create_eq, hins, Option.map_some']
                  exact this
                · intro s' host' r' hrun
                  simp only [runFrames, hloop, hact, hfr, insert_outcome, hins] at hrun
                  obtain ⟨A', B', hw, hA3, hB3, hr3, hj'⟩ := IH.2 s' host' r' hrun
                  refine ⟨A', B', ?_, ?_, ?_, ?_, hj'⟩
                  · simp only [runFrames, hloopeq, hloop, hact, hfr, List.cons_append,
                      insert_outcome, noop_wrapped_insert_create_eq, hins, Option.map_some']
                    exact hw
                  · rw [hA3, hkind]
                  · rw [hB3, hkind]
                  · rw [hr3, hkind]

/-- C8: executing a transaction with the instrumentation layer registered
and the no-op observer produces exactly the same outcome (handler state,
host, and final `FrameResult` with its settled gas) as executing without
the layer, for every base instruction table, collaborator set and handler
set that respect the collaborator contracts (instructions and handlers
keep the journal nonempty, and the `call`/`create` handlers produce
frames/results of their own kind). -/
theorem inspector_transparency {S : Type} (table : Nat → Instruction) (cb : Collaborators)
    (handlers : ExecutionHandlers S) (loopFuel fuel : Nat) (s : S) (host : Host) (tx : TxKind)
    (hpres_table : ∀ op i h i2 h2, h.journal ≠ [] → table op i h = some (i2, h2) →
      h2.journal ≠ [])
    (hpres_call : ∀ s h i s2 h2 fr, h.journal ≠ [] → handlers.call s h i = some (s2, h2, fr) →
      h2.journal ≠ [])
    (hpres_create : ∀ s h i s2 h2 fr, h.journal ≠ [] →
      handlers.create s h i = some (s2, h2, fr) → h2.journal ≠ [])
    (hpres_ico : ∀ s h itp o s2 h2 itp2, h.journal ≠ [] →
      handlers.insert_call_outcome s h itp o = some (s2, h2, itp2) → h2.journal ≠ [])
    (hpres_icr : ∀ s h itp o s2 h2 itp2, h.journal ≠ [] →
      handlers.insert_create_outcome s h itp o = some (s2, h2, itp2) → h2.journal ≠ [])
    (hpres_cb1 : ∀ h ir cp, h.journal ≠ [] → (cb.call_return_host h ir cp).journal ≠ [])
    (hpres_cb2 : ∀ h ir a cp, h.journal ≠ [] → (cb.create_return_host h ir a cp).1.journal ≠ [])
    (hwf_call : ∀ s h i s2 h2 fr, handlers.call s h i = some (s2, h2, fr) →
      fr.kind_is_call = true)
    (hwf_create : ∀ s h i s2 h2 fr, handlers.create s h i = some (s2, h2, fr) →
      fr.kind_is_call = false)
    (hj : host.journal ≠ []) :
    (transact (inspector_handle_register noOpInspector table handlers).1 cb
        (inspector_handle_register noOpInspector table handlers).2 loopFuel fuel
        (s, ([] : List CallInputs), ([] : List CreateInputs)) host tx).map
          (fun p => (p.1.1, p.2.1, p.2.2))
      = transact table cb handlers loopFuel fuel s host tx := by
  have hmain := noop_runFrames_eq table cb handlers loopFuel hpres_table hpres_call
    hpres_create hpres_ico hpres_icr hpres_cb1 hpres_cb2 hwf_call hwf_create fuel
  cases tx with
  | call inputs =>
    cases hfirst : handlers.call s host inputs with
    | none =>
      simp [transact, noop_wrapped_call_eq, hfirst]
    | some t =>
      obtain ⟨s1, h1, fr⟩ := t
      have hj1 : h1.journal ≠ [] := hpres_call s host inputs s1 h1 fr hj hfirst
      have hkindfr := hwf_call s host inputs s1 h1 fr hfirst
      cases fr with
      | result r =>
        cases r with
        | create o => simp [FrameOrResult.kind_is_call, FrameResult.is_call] at hkindfr
        | call o =>
          simp only [transact, noop_wrapped_call_eq, hfirst, Option.map_some',
            noop_wrapped_last_call_eq]
          cases hlast : handlers.last_frame_return s1 h1 (FrameResult.call o) <;>
            simp [hlast]
      | frame f =>
        have hfcall : f.is_call = true := by
          simpa [FrameOrResult.kind_is_call] using hkindfr
        have hlens1 : ([inputs] : List CallInputs).length = count_call_frames [f] := by
          simp [count_call_frames, List.countP_cons, hfcall]
        have hlens2 : ([] : List CreateInputs).length = count_create_frames [f] := by
          simp [count_create_frames, List.countP_cons, hfcall]
        have main := hmain s1 h1 [] f [] [] [inputs] [] hj1 hlens1 hlens2
        cases hrunb : runFrames table cb handlers loopFuel fuel s1 h1 [] f with
        | none =>
          have hw := main.1 hrunb
          simp only [List.append_nil] at hw
          simp only [transact, noop_wrapped_call_eq, hfirst, Option.map_some']
          rw [show (inspector_handle_register noOpInspector table handlers).1
            = inspector_instruction_table noOpInspector table from rfl, hw, hrunb]
          rfl
        | some t2 =>
          obtain ⟨s2, h2, r⟩ := t2
          obtain ⟨A', B', hw, hA', hB', hrk, hj2⟩ := main.2 s2 h2 r hrunb
          cases r with
          | create o2 => simp [FrameResult.is_call, outermost, hfcall] at hrk
          | call o2 =>
            cases A' with
            | nil => simp [outermost, hfcall] at hA'
            | cons a A2 =>
              simp only [outermost, hfcall, List.length_cons, if_true] at hA'
              have hA2nil : A2 = [] := by
                simpa using hA'
              subst hA2nil
              simp only [List.append_nil] at hw
              simp only [transact, noop_wrapped_call_eq, hfirst, Option.map_some']
              rw [show (inspector_handle_register noOpInspector table handlers).1
                = inspector_instruction_table noOpInspector table from rfl, hw, hrunb]
              simp only [noop_wrapped_last_call_eq]
              cases hlast : handlers.last_frame_return s2 h2 (FrameResult.call o2) <;>
                simp [hlast]
  | create inputs =>
    cases hfirst : handlers.create s host inputs with
    | none =>
      simp [transact, noop_wrapped_create_eq, hfirst]
    | some t =>
      obtain ⟨s1, h1, fr⟩ := t
      have hj1 : h1.journal ≠ [] := hpres_create s host inputs s1 h1 fr hj hfirst
      have hkindfr := hwf_create s host inputs s1 h1 fr hfirst
      cases fr with
      | result r =>
        cases r with
        | call o => simp [FrameOrResult.kind_is_call, FrameResult.is_call] at hkindfr
        | create o =>
          simp only [transact, noop_wrapped_create_eq, hfirst, Option.map_some',
            noop_wrapped_last_create_eq]
          cases hlast : handlers.last_frame_return s1 h1 (FrameResult.create o) <;>
            simp [hlast]
      | frame f =>
        have hfcreate : f.is_call = false := by
          simpa [FrameOrResult.kind_is_call] using hkindfr
        have hlens1 : ([] : List CallInputs).length = count_call_frames [f] := by
          simp [count_call_frames, List.countP_cons, hfcreate]
        have hlens2 : ([inputs] : List CreateInputs).length = count_create_frames [f] := by
          simp [count_create_frames, List.countP_cons, hfcreate]
        have main := hmain s1 h1 [] f [] [] [] [inputs] hj1 hlens1 hlens2
        cases hrunb : runFrames table cb handlers loopFuel fuel s1 h1 [] f with
        | none =>
          have hw := main.1 hrunb
          simp only [List.append_nil] at hw
          simp only [transact, noop_wrapped_create_eq, hfirst, Option.map_some']
          rw [show (inspector_handle_register noOpInspector table handlers).1
            = inspector_instruction_table noOpInspector table from rfl, hw, hrunb]
          rfl
        | some t2 =>
          obtain ⟨s2, h2, r⟩ := t2
          obtain ⟨A', B', hw, hA', hB', hrk, hj2⟩ := main.2 s2 h2 r hrunb
          cases r with
          | call o2 => simp [FrameResult.is_call, outermost, hfcreate] at hrk
          | create o2 =>
            cases B' with
            | nil => simp [outermost, hfcreate] at hB'
            | cons b B2 =>
              simp only [outermost, hfcreate, List.length_cons] at hB'
              have hB2nil : B2 = [] := by
                simpa using hB'
              subst hB2nil
              simp only [List.append_nil] at hw
              simp only [transact, noop_wrapped_create_eq, hfirst, Option.map_some']
              rw [show (inspector_handle_register noOpInspector table handlers).1
                = inspector_instruction_table noOpInspector table from rfl, hw, hrunb]
              simp only [noop_wrapped_last_create_eq]
              cases hlast : handlers.last_frame_return s2 h2 (FrameResult.create o2) <;>
                simp [hlast]

/-- Witness for C8 at a concrete table, collaborator set and handler set:
a call transaction that opens one frame and halts immediately. -/
theorem inspector_transparency_witness :
    (transact (inspector_handle_register noOpInspector const_table frame_handlers).1 idCollab
        (inspector_handle_register noOpInspector const_table frame_handlers).2 2 2
        (0, ([] : List CallInputs), ([] : List CreateInputs)) init_host
        (TxKind.call inputs0)).map (fun p => (p.1.1, p.2.1, p.2.2))
      = transact const_table idCollab frame_handlers 2 2 0 init_host (TxKind.call inputs0) :=
  inspector_transparency const_table idCollab frame_handlers 2 2 0 init_host
    (TxKind.call inputs0)
    (by
      intro op i h i2 h2 hne heq
      simp only [const_table, id_instruction, Option.some.injEq, Prod.mk.injEq] at heq
      exact heq.2 ▸ hne)
    (by
      intro s h i s2 h2 fr hne heq
      simp only [frame_handlers, Option.some.injEq, Prod.mk.injEq] at heq
      exact heq.2.1 ▸ hne)
    (by
      intro s h i s2 h2 fr hne heq
      simp only [frame_handlers, Option.some.injEq, Prod.mk.injEq] at heq
      exact heq.2.1 ▸ hne)
    (by
      intro s h itp o s2 h2 itp2 hne heq
      simp only [frame_handlers, Option.some.injEq, Prod.mk.injEq] at heq
      exact heq.2.1 ▸ hne)
    (by
      intro s h itp o s2 h2 itp2 hne heq
      simp only [frame_handlers, Option.some.injEq, Prod.mk.injEq] at heq
      exact heq.2.1 ▸ hne)
    (by intro h ir cp hne; exact hne)
    (by intro h ir a cp hne; exact hne)
    (by
      intro s h i s2 h2 fr heq
      simp only [frame_handlers, Option.some.injEq, Prod.mk.injEq] at heq
      rw [← heq.2.2]
      rfl)
    (by
      intro s h i s2 h2 fr heq
      simp only [frame_handlers, Option.some.injEq, Prod.mk.injEq] at heq
      rw [← heq.2.2]
      rfl)
    (by simp [init_host])

end Revm
